import Mathlib

/-!
Verification of the Identity Matching & Multi-Frame Tracking Engine of the
Capstone-CST498 repository, shallowly embedded from `recognition_core.py` and
`integrated_recognition_system.py`.

Modelling conventions:
* Python floats become rationals; timestamps (time.time()) become rationals.
* External collaborators (the face_recognition library's distance function,
  the HTTP layer, the MySQL query, the cache file, cv2 transforms) are passed
  in as explicit oracle parameters, so theorems quantify over their behaviour.
* Fallible Python operations that the code catches are modelled with
  Option/Except-valued oracles; the embedded functions are total, mirroring
  the fact that the Python functions catch those errors.
-/

namespace Capstone

/-- A face embedding vector (the source stores 128-d float vectors; the
dimension plays no role in the matcher logic). -/
abbrev Emb := List ℚ

/-- The known-identity set as the source represents it: parallel lists of
encodings and (banner_id, display_name) pairs. -/
abbrev KnownSet := List Emb × List (String × String)

/-- Constant MATCH_THRESHOLD = 0.65 from recognition_core.py. -/
def MATCH_THRESHOLD : ℚ := 65 / 100

/-- Constant DB_REFRESH_INTERVAL = 300 from recognition_core.py. -/
def DB_REFRESH_INTERVAL : ℚ := 300

/-- np.min over a nonempty list (the source guards the empty case before
calling it; the value on [] is an unused default). -/
def npMin : List ℚ → ℚ
  | [] => 0
  | h :: t => t.foldl min h

/-- np.argmin: index of the first occurrence of the minimum. -/
def npArgmin (ds : List ℚ) : ℕ := ds.findIdx (fun d => d == npMin ds)

/-- Result tuple of FaceRecognitionEngine.match_face_encoding:
(name, matched, confidence, banner_id). -/
structure MatchOut where
  name : String
  matched : Bool
  confidence : ℚ
  bannerId : Option String
deriving Repr, DecidableEq

/-- The FaceRecognitionEngine state relevant to matching and frame analysis
(fields of the Python class of the same name). -/
structure EngineState where
  matchThreshold : ℚ
  frameScale : ℚ
  frameSkip : ℕ
  frameCounter : ℕ
  knownEncodings : List Emb
  knownNames : List (String × String)
  lastRefresh : ℚ
deriving Repr, DecidableEq

/-- FaceRecognitionEngine.match_face_encoding, with the library call
face_recognition.face_distance passed as the oracle fd.  The Python
`display_name or banner_id` falls back to the id exactly when the display
name is the empty string. -/
def matchFaceEncoding (fd : List Emb → Emb → List ℚ) (s : EngineState) (e : Emb) : MatchOut :=
  if s.knownEncodings.isEmpty then
    ⟨"Unknown", false, 0, none⟩
  else
    let distances := fd s.knownEncodings e
    let minDistance := npMin distances
    let bestIdx := npArgmin distances
    let confidence := max 0 (1 - minDistance)
    if minDistance ≤ s.matchThreshold ∧ bestIdx < s.knownNames.length then
      let p := s.knownNames.getD bestIdx ("", "")
      ⟨if p.2 = "" then p.1 else p.2, true, confidence, some p.1⟩
    else
      ⟨"Unknown", false, confidence, none⟩

/-- A row of the users table as load_encodings_from_db consumes it.  The
encoding field holds the value of _deserialize_encoding on the raw BLOB:
none models the case where no dtype decodes to a 128-d vector (the record is
then skipped). -/
structure DBRow where
  bannerId : String
  firstName : String
  lastName : String
  encoding : Option Emb
deriving Repr, DecidableEq

/-- Result of load_encodings_from_db together with its observable side
effects: the cache-file state after the call, whether save_encodings_cache
was invoked, and whether any write was issued to the remote store (the
function only ever runs a SELECT, so this is false on every path). -/
structure LoadOutcome where
  result : KnownSet
  cacheAfter : Option KnownSet
  wroteCache : Bool
  wroteRemote : Bool
deriving Repr, DecidableEq

/-- The row-processing loop of load_encodings_from_db: rows whose encoding
fails to deserialize are skipped; display_name is first_name and last_name
joined by a space and stripped. -/
def rowsToKnownSet (rows : List DBRow) : KnownSet :=
  rows.foldl
    (fun acc row =>
      match row.encoding with
      | none => acc
      | some enc =>
          (acc.1 ++ [enc], acc.2 ++ [(row.bannerId, (row.firstName ++ " " ++ row.lastName).trim)]))
    ([], [])

/-- load_encodings_from_db from recognition_core.py.  credsOK models
`all([DB_HOST, DB_USER, DB_PASSWORD, DB_NAME])`; dbQuery models the connect +
SELECT, with error standing for the pymysql.MySQLError the code catches;
cache models load_encodings_cache (none when the cache file is missing or
unparseable — that helper catches its own errors); saveOk models whether the
np.savez write inside save_encodings_cache succeeds (that helper catches its
own errors and returns False).  The Lean function is total: every failure the
source catches is an explicit input, mirroring that the call never raises. -/
def load_encodings_from_db (credsOK : Bool) (dbQuery : Except Unit (List DBRow))
    (cache : Option KnownSet) (saveOk : Bool) : LoadOutcome :=
  if !credsOK then
    match cache with
    | some c => ⟨c, cache, false, false⟩
    | none => ⟨([], []), cache, false, false⟩
  else
    match dbQuery with
    | Except.ok rows =>
        let ks := rowsToKnownSet rows
        if !ks.1.isEmpty then
          ⟨ks, if saveOk then some ks else cache, true, false⟩
        else
          ⟨ks, cache, false, false⟩
    | Except.error _ =>
        match cache with
        | some c => ⟨c, cache, false, false⟩
        | none => ⟨([], []), cache, false, false⟩

/-- Constant ALTERNATIVE_FLASK_URLS from recognition_core.py. -/
def ALTERNATIVE_FLASK_URLS : List String :=
  ["http://localhost:5001", "http://127.0.0.1:5001", "http://localhost:5000",
   "http://127.0.0.1:5000", "http://10.202.65.203:5001"]

/-- The candidate list both dispatch helpers build:
`[FLASK_APP_URL] + [url for url in ALTERNATIVE_FLASK_URLS if url != FLASK_APP_URL]`. -/
def urlsToTry (primary : String) : List String :=
  primary :: ALTERNATIVE_FLASK_URLS.filter (fun u => u ≠ primary)

/-- The attempt loop of log_verification_http: post to each base URL in
order; a connection failure (oracle none) or a non-200 status continues the
scan; the first 200 stops it, returning that URL.  The oracle maps a base URL
to the status code of POST url/api/log_verification, none standing for the
requests.RequestException the code catches. -/
def tryLogVerification (http : String → Option ℕ) : List String → Option String
  | [] => none
  | u :: rest =>
      match http u with
      | some status => if status = 200 then some u else tryLogVerification http rest
      | none => tryLogVerification http rest

/-- log_verification_http from recognition_core.py, modelled on the mutable
global FLASK_APP_URL: returns the success flag and the primary URL after the
call (the successful URL is stored back into FLASK_APP_URL; on total failure
the primary is unchanged and False is returned). -/
def log_verification_http (http : String → Option ℕ) (primary : String) : Bool × String :=
  match tryLogVerification http (urlsToTry primary) with
  | some u => (true, u)
  | none => (false, primary)

/-- The attempt loop of process_order_fulfillment.  The oracle maps a base
URL to the status code of POST url/api/process_order paired with the parsed
order_fulfilled field of its JSON body; none stands for a caught connection
failure.  On the first 200 the scan stops, yielding that URL and the
fulfilled flag. -/
def tryProcessOrder (http : String → Option (ℕ × Bool)) :
    List String → Option (String × Bool)
  | [] => none
  | u :: rest =>
      match http u with
      | some r => if r.1 = 200 then some (u, r.2) else tryProcessOrder http rest
      | none => tryProcessOrder http rest

/-- process_order_fulfillment from recognition_core.py: returns the
order_fulfilled flag of the first 200 response (False when every candidate
fails) and the primary URL after the call. -/
def process_order_fulfillment (http : String → Option (ℕ × Bool)) (primary : String) :
    Bool × String :=
  match tryProcessOrder http (urlsToTry primary) with
  | some (u, fulfilled) => (fulfilled, u)
  | none => (false, primary)

/-- A base URL answers the verification-log POST with HTTP 200. -/
def isLog200 (http : String → Option ℕ) (u : String) : Bool :=
  match http u with
  | some status => status == 200
  | none => false

/-- A base URL answers the process-order POST with HTTP 200. -/
def isOrder200 (ohttp : String → Option (ℕ × Bool)) (u : String) : Bool :=
  match ohttp u with
  | some r => r.1 == 200
  | none => false

/-- Per-face result dict passed from analyze_faces to update_face_tracking
(same fields as RecognitionResult in recognition_core.py); box is
(top, right, bottom, left). -/
structure RecognitionResult where
  name : String
  matched : Bool
  confidence : ℚ
  bannerId : Option String
  box : ℤ × ℤ × ℤ × ℤ
deriving Repr, DecidableEq

/-- One entry of self.face_tracking in IntegratedRecognitionSystem. -/
structure TrackedFace where
  box : ℤ × ℤ × ℤ × ℤ
  center : ℤ × ℤ
  name : String
  matched : Bool
  confidence : ℚ
  bannerId : Option String
  lastSeen : ℚ
  firstRecognized : Option ℚ
deriving Repr, DecidableEq

/-- self.face_tracking: a Python dict from track id to tracked face, modelled
as an insertion-ordered association list with unique keys. -/
abbrev TrackMap := List (String × TrackedFace)

/-- Constant self.FACE_PERSISTENCE_TIME = 3.0. -/
def FACE_PERSISTENCE_TIME : ℚ := 3

/-- Constant self.FACE_POSITION_TOLERANCE = 50. -/
def FACE_POSITION_TOLERANCE : ℤ := 50

/-- Constant self.recognition_cooldown = 2.0. -/
def RECOGNITION_COOLDOWN : ℚ := 2

/-- Python dict assignment d[k] = v: replace in place when the key exists,
append otherwise. -/
def dictUpsert (m : TrackMap) (k : String) (v : TrackedFace) : TrackMap :=
  if m.any (fun p => p.1 == k) then
    m.map (fun p => if p.1 == k then (k, v) else p)
  else
    m ++ [(k, v)]

/-- Python dict lookup d.get(k). -/
def dictGet (m : TrackMap) (k : String) : Option TrackedFace :=
  (m.find? (fun p => p.1 == k)).map (fun p => p.2)

/-- Box center as the source computes it: ((left + right) // 2,
(top + bottom) // 2), with Python floor division. -/
def centerOf (box : ℤ × ℤ × ℤ × ℤ) : ℤ × ℤ :=
  ((box.2.2.2 + box.2.1).fdiv 2, (box.1 + box.2.2.1).fdiv 2)

/-- The source's spatial gate: sqrt(dx^2 + dy^2) < FACE_POSITION_TOLERANCE.
Both sides are nonnegative, so the test equals dx^2 + dy^2 < tolerance^2,
stated here without the square root to stay within rationals. -/
def centerClose (faceCenter trackedCenter : ℤ × ℤ) : Bool :=
  (faceCenter.1 - trackedCenter.1) ^ 2 + (faceCenter.2 - trackedCenter.2) ^ 2
    < FACE_POSITION_TOLERANCE ^ 2

/-- First-fit search over the existing tracks (insertion order, break at the
first one within tolerance), as in the source's for loop. -/
def findMatchingTrack (m : TrackMap) (c : ℤ × ℤ) : Option String :=
  (m.find? (fun p => centerClose c p.2.center)).map (fun p => p.1)

/-- New track id minted from the timestamp and the center
(f-string face_time_x_y in the source). -/
def mkTrackId (now : ℚ) (c : ℤ × ℤ) : String :=
  "face_" ++ toString now ++ "_" ++ toString c.1 ++ "_" ++ toString c.2

/-- Track id selection for one result: reuse the first-fit existing track's
id, or mint a fresh id from the timestamp and center. -/
def trackIdFor (now : ℚ) (tracking : TrackMap) (r : RecognitionResult) : String :=
  match findMatchingTrack tracking (centerOf r.box) with
  | some t => t
  | none => mkTrackId now (centerOf r.box)

/-- The per-result body of update_face_tracking's loop: the upserted
current_faces entry.  first_recognized starts from the prior track's value
(current_time when the result is matched and the track is new, None when
unmatched and new) and is then overwritten with current_time when the result
is matched and the prior state was not. -/
def upsertTrack (now : ℚ) (tracking : TrackMap) (r : RecognitionResult) :
    String × TrackedFace :=
  let c := centerOf r.box
  let tid := trackIdFor now tracking r
  let prior := dictGet tracking tid
  let first0 :=
    match prior with
    | some p => p.firstRecognized
    | none => if r.matched then some now else none
  let priorMatched :=
    match prior with
    | some p => p.matched
    | none => false
  let first := if r.matched && !priorMatched then some now else first0
  (tid, ⟨r.box, c, r.name, r.matched, r.confidence, r.bannerId, now, first⟩)

/-- The current_faces dict built by update_face_tracking: each result is
upserted against the PRIOR tracking state (so two results mapping to the
same track id leave the last one's entry — the documented last-wins case). -/
def currentFaces (now : ℚ) (results : List RecognitionResult) (tracking : TrackMap) :
    TrackMap :=
  results.foldl
    (fun cur r =>
      let (tid, t) := upsertTrack now tracking r
      dictUpsert cur tid t)
    []

/-- update_face_tracking from integrated_recognition_system.py: build
current_faces, drop every old track with now - last_seen not strictly below
FACE_PERSISTENCE_TIME, then dict.update the survivors with current_faces. -/
def update_face_tracking (now : ℚ) (results : List RecognitionResult)
    (tracking : TrackMap) : TrackMap :=
  let current := currentFaces now results tracking
  let kept := tracking.filter (fun p => now - p.2.lastSeen < FACE_PERSISTENCE_TIME)
  current.foldl (fun acc p => dictUpsert acc p.1 p.2) kept

/-- The firing condition of process_face_recognition_events: the track is
matched, carries a truthy banner_id (non-None and non-empty string), and the
global cooldown has elapsed. -/
def eventGuard (now lastRec : ℚ) (t : TrackedFace) : Bool :=
  t.matched
    && (match t.bannerId with
        | some b => b ≠ ""
        | none => false)
    && (RECOGNITION_COOLDOWN < now - lastRec)

/-- process_face_recognition_events from integrated_recognition_system.py:
scan the tracks in order; on the first one passing the guard, dispatch its
event, set the single global last_recognition_time to now and break.
Returns the dispatched events and the new last_recognition_time. -/
def process_face_recognition_events (now lastRec : ℚ) :
    TrackMap → List (String × TrackedFace) × ℚ
  | [] => ([], lastRec)
  | (tid, t) :: rest =>
      if eventGuard now lastRec t then ([(tid, t)], now)
      else process_face_recognition_events now lastRec rest

/-- Timestamps of the events a whole run dispatches: each call of the loop
supplies its time.time() and the tracker state it sees; the global
last_recognition_time threads through. -/
def runDispatchTimes (lastRec : ℚ) : List (ℚ × TrackMap) → List ℚ
  | [] => []
  | (now, tracks) :: rest =>
      let out := process_face_recognition_events now lastRec tracks
      if out.1.isEmpty then runDispatchTimes out.2 rest
      else now :: runDispatchTimes out.2 rest

/-- Camera frames are opaque handles at this boundary (their pixel content
only flows into the vision oracle). -/
abbrev Frame := ℕ

/-- The cv2 / face_recognition library boundary used by analyze_frame:
resizeCvt is cv2.resize by the scale factor followed by cvtColor to RGB;
faceLocations and faceEncodings are the detector and encoder on that
downscaled frame; faceDistance is face_recognition.face_distance. -/
structure Vision where
  resizeCvt : Frame → ℚ → Frame
  faceLocations : Frame → List (ℤ × ℤ × ℤ × ℤ)
  faceEncodings : Frame → List (ℤ × ℤ × ℤ × ℤ) → List Emb
  faceDistance : List Emb → Emb → List ℚ

/-- Python int() truncation toward zero. -/
def pyInt (q : ℚ) : ℤ := if 0 ≤ q then ⌊q⌋ else ⌈q⌉

/-- FaceRecognitionEngine.analyze_frame.  frame = none models a None frame;
loadOut is what load_encodings would return should the trailing
should_refresh branch fire (its DB/cache inputs are modelled by
load_encodings_from_db); now is time.time().  The returned Bool reports
whether face detection (face_recognition.face_locations) ran during the
call, and the returned EngineState carries the updated frame counter /
known set.  Early returns ([], unchanged or counter-only state, false)
mirror the source's `return []` paths. -/
def analyze_frame (v : Vision) (loadOut : List Emb × List (String × String)) (now : ℚ)
    (s : EngineState) (frame : Option Frame) (skipCheck : Bool) :
    List RecognitionResult × EngineState × Bool :=
  match frame with
  | none => ([], s, false)
  | some f =>
      if s.knownEncodings.isEmpty then ([], s, false)
      else
        let s1 := { s with frameCounter := s.frameCounter + 1 }
        if !skipCheck && (s1.frameCounter % s.frameSkip != 0) then ([], s1, false)
        else
          let rgb := v.resizeCvt f s.frameScale
          let locs := v.faceLocations rgb
          if locs.isEmpty then ([], s1, true)
          else
            let encs := v.faceEncodings rgb locs
            let scale : ℚ := if s.frameScale ≠ 0 then 1 / s.frameScale else 1
            let results := (encs.zip locs).map fun pr =>
              let m := matchFaceEncoding v.faceDistance s1 pr.1
              { name := m.name, matched := m.matched, confidence := m.confidence,
                bannerId := m.bannerId,
                box := (pyInt (pr.2.1 * scale), pyInt (pr.2.2.1 * scale),
                        pyInt (pr.2.2.2.1 * scale), pyInt (pr.2.2.2.2 * scale)) }
            let s2 :=
              if DB_REFRESH_INTERVAL ≤ now - s1.lastRefresh then
                { s1 with knownEncodings := loadOut.1, knownNames := loadOut.2,
                          lastRefresh := now }
              else s1
            (results, s2, true)

theorem foldl_min_or (t : List ℚ) (h : ℚ) :
    t.foldl min h = h ∨ t.foldl min h ∈ t := by
  induction t generalizing h with
  | nil => exact Or.inl rfl
  | cons a t ih =>
    rw [List.foldl_cons]
    rcases ih (min h a) with h1 | h1
    · rcases min_choice h a with h2 | h2
      · exact Or.inl (h1.trans h2)
      · exact Or.inr (by rw [h1, h2]; exact List.mem_cons_self a t)
    · exact Or.inr (List.mem_cons_of_mem a h1)

theorem npMin_mem {ds : List ℚ} (h : ds ≠ []) : npMin ds ∈ ds := by
  match ds, h with
  | d :: t, _ =>
    rcases foldl_min_or t d with h1 | h1
    · simp [npMin, h1]
    · simp [npMin]; right; exact h1

theorem npArgmin_lt_length {ds : List ℚ} (h : ds ≠ []) :
    npArgmin ds < ds.length := by
  apply List.findIdx_lt_length_of_exists
  exact ⟨npMin ds, npMin_mem h, by simp⟩

theorem foldl_min_le (t : List ℚ) (h : ℚ) : t.foldl min h ≤ h := by
  induction t generalizing h with
  | nil => exact le_refl h
  | cons a t ih => exact le_trans (ih (min h a)) (min_le_left h a)

theorem foldl_min_le_mem (t : List ℚ) (h : ℚ) :
    ∀ d ∈ t, t.foldl min h ≤ d := by
  induction t generalizing h with
  | nil => intro d hd; cases hd
  | cons a t ih =>
    intro d hd
    rcases List.mem_cons.mp hd with h1 | h1
    · subst h1
      exact le_trans (foldl_min_le t (min h d)) (min_le_right h d)
    · exact ih (min h a) d h1

theorem npMin_le {ds : List ℚ} : ∀ d ∈ ds, npMin ds ≤ d := by
  match ds with
  | [] => intro d hd; cases hd
  | h :: t =>
    intro d hd
    rcases List.mem_cons.mp hd with h1 | h1
    · subst h1; exact foldl_min_le t d
    · exact foldl_min_le_mem t h d h1

theorem npMin_nonneg {ds : List ℚ} (h : ∀ d ∈ ds, 0 ≤ d) : 0 ≤ npMin ds := by
  by_cases hds : ds = []
  · simp [hds, npMin]
  · exact h _ (npMin_mem hds)

/-- C1 counterexample: when the minimum distance equals the threshold exactly
(distance 65/100, threshold 65/100) the source's comparison
`min_distance <= self.match_threshold` yields matched=true, while the claim,
which requires the minimum distance to be strictly less than the threshold,
predicts matched=false. -/
theorem match_face_encoding_strict_counterexample :
    (matchFaceEncoding (fun _ _ => [(65 : ℚ)/100])
        ⟨65/100, 1/2, 3, 0, [[0]], [("B001", "Ada Lovelace")], 0⟩ [0]).matched = true
    ∧ ¬ npMin [(65 : ℚ)/100] < (65 : ℚ)/100 := by
  constructor
  · norm_num [matchFaceEncoding, npMin, npArgmin, List.findIdx_cons, beq_self_eq_true]
  · simp [npMin]

/-- C1 (amended: the match fires on minimum distance less than OR EQUAL to the
threshold, not strictly less): for a nonempty known set with names parallel to
encodings and a distance list of matching length, match_face_encoding returns
matched=true together with the best-distance identity's display name (falling
back to its id when the name is empty) and that identity's id exactly when
the minimum distance is at most the threshold; otherwise it returns
matched=false, identityId=none and the sentinel name Unknown. -/
theorem match_face_encoding_threshold_spec
    (fd : List Emb → Emb → List ℚ) (s : EngineState) (e : Emb)
    (hne : s.knownEncodings ≠ [])
    (hlen : s.knownNames.length = s.knownEncodings.length)
    (hfd : (fd s.knownEncodings e).length = s.knownEncodings.length) :
    ((matchFaceEncoding fd s e).matched = true ↔
        npMin (fd s.knownEncodings e) ≤ s.matchThreshold)
    ∧ (npMin (fd s.knownEncodings e) ≤ s.matchThreshold →
        matchFaceEncoding fd s e =
          { name := if (s.knownNames.getD (npArgmin (fd s.knownEncodings e)) ("", "")).2 = ""
                    then (s.knownNames.getD (npArgmin (fd s.knownEncodings e)) ("", "")).1
                    else (s.knownNames.getD (npArgmin (fd s.knownEncodings e)) ("", "")).2,
            matched := true,
            confidence := max 0 (1 - npMin (fd s.knownEncodings e)),
            bannerId := some (s.knownNames.getD (npArgmin (fd s.knownEncodings e)) ("", "")).1 })
    ∧ (¬ npMin (fd s.knownEncodings e) ≤ s.matchThreshold →
        matchFaceEncoding fd s e =
          { name := "Unknown", matched := false,
            confidence := max 0 (1 - npMin (fd s.knownEncodings e)), bannerId := none }) := by
  have hdsne : fd s.knownEncodings e ≠ [] := by
    intro h0
    rw [h0] at hfd
    exact hne (List.length_eq_zero.mp hfd.symm)
  have hidx : npArgmin (fd s.knownEncodings e) < s.knownNames.length := by
    rw [hlen, ← hfd]
    exact npArgmin_lt_length hdsne
  have hempty : s.knownEncodings.isEmpty = false := by
    simp [List.isEmpty_iff, hne]
  refine ⟨?_, ?_, ?_⟩
  · by_cases hm : npMin (fd s.knownEncodings e) ≤ s.matchThreshold
    · simp [matchFaceEncoding, hempty, hidx, hm]
    · simp [matchFaceEncoding, hempty, hidx, hm]
  · intro hm
    simp [matchFaceEncoding, hempty, hidx, hm]
  · intro hm
    simp [matchFaceEncoding, hempty, hidx, hm]

/-- Witness for the amended C1 at a concrete input: one known identity at
distance 1/10 with threshold 65/100 matches and reports its id. -/
theorem match_face_encoding_threshold_spec_witness :
    (matchFaceEncoding (fun _ _ => [(1 : ℚ)/10])
        ⟨65/100, 1/2, 3, 0, [[0]], [("B001", "Ada Lovelace")], 0⟩ [0]).matched = true := by
  have h := (match_face_encoding_threshold_spec (fun _ _ => [(1 : ℚ)/10])
      ⟨65/100, 1/2, 3, 0, [[0]], [("B001", "Ada Lovelace")], 0⟩ [0]
      (by decide) (by decide) (by decide)).1
  exact h.mpr (by norm_num [npMin])

/-- C8: the confidence returned by match_face_encoding equals
max 0 (1 - minDistance) whenever the known set is nonempty, lies in [0, 1]
whenever all distances are nonnegative, and on an empty known set the result
is exactly (Unknown, false, 0, none). -/
theorem match_face_encoding_confidence_spec
    (fd : List Emb → Emb → List ℚ) (s : EngineState) (e : Emb)
    (hnn : ∀ d ∈ fd s.knownEncodings e, 0 ≤ d) :
    (0 ≤ (matchFaceEncoding fd s e).confidence
      ∧ (matchFaceEncoding fd s e).confidence ≤ 1)
    ∧ (s.knownEncodings ≠ [] →
        (matchFaceEncoding fd s e).confidence
          = max 0 (1 - npMin (fd s.knownEncodings e)))
    ∧ (s.knownEncodings = [] →
        matchFaceEncoding fd s e
          = { name := "Unknown", matched := false, confidence := 0, bannerId := none }) := by
  have hm0 : 0 ≤ npMin (fd s.knownEncodings e) := npMin_nonneg hnn
  have hmax : max 0 (1 - npMin (fd s.knownEncodings e)) ≤ 1 := by
    apply max_le
    · norm_num
    · linarith
  by_cases h0 : s.knownEncodings = []
  · refine ⟨?_, ?_, ?_⟩
    · simp [matchFaceEncoding, h0]
    · intro h; exact absurd h0 h
    · intro _; simp [matchFaceEncoding, h0]
  · have hempty : s.knownEncodings.isEmpty = false := by
      simp [List.isEmpty_iff, h0]
    refine ⟨?_, ?_, ?_⟩
    · by_cases hc : npMin (fd s.knownEncodings e) ≤ s.matchThreshold
        ∧ npArgmin (fd s.knownEncodings e) < s.knownNames.length
      · constructor
        · simp [matchFaceEncoding, hempty, hc]
        · simpa [matchFaceEncoding, hempty, hc] using hmax
      · constructor
        · simp [matchFaceEncoding, hempty, hc]
        · simpa [matchFaceEncoding, hempty, hc] using hmax
    · intro _
      by_cases hc : npMin (fd s.knownEncodings e) ≤ s.matchThreshold
        ∧ npArgmin (fd s.knownEncodings e) < s.knownNames.length
      · simp [matchFaceEncoding, hempty, hc]
      · simp [matchFaceEncoding, hempty, hc]
    · intro h; exact absurd h h0

/-- Witness for C8 at a concrete input: an empty known set yields the exact
sentinel result and the confidence bounds hold. -/
theorem match_face_encoding_confidence_spec_witness :
    matchFaceEncoding (fun _ _ => []) ⟨65/100, 1/2, 3, 0, [], [], 0⟩ []
      = { name := "Unknown", matched := false, confidence := 0, bannerId := none } :=
  (match_face_encoding_confidence_spec (fun _ _ => [])
      ⟨65/100, 1/2, 3, 0, [], [], 0⟩ [] (by simp)).2.2 rfl

/-- C9: threshold monotonicity — if match_face_encoding reports matched=true
at threshold t, it also does at any threshold t at least as large, for the
same distance oracle, engine state and embedding. -/
theorem match_face_encoding_threshold_monotone
    (fd : List Emb → Emb → List ℚ) (s : EngineState) (e : Emb) (t t' : ℚ)
    (ht : t ≤ t')
    (hm : (matchFaceEncoding fd { s with matchThreshold := t } e).matched = true) :
    (matchFaceEncoding fd { s with matchThreshold := t' } e).matched = true := by
  by_cases h0 : s.knownEncodings.isEmpty
  · simp [matchFaceEncoding, h0] at hm
  · by_cases hc : npMin (fd s.knownEncodings e) ≤ t
      ∧ npArgmin (fd s.knownEncodings e) < s.knownNames.length
    · have h1 : npMin (fd s.knownEncodings e) ≤ t' := le_trans hc.1 ht
      simp [matchFaceEncoding, h0, h1, hc.2]
    · simp [matchFaceEncoding, h0, hc] at hm

/-- Witness for C9 at a concrete input: a match at threshold 1/2 is preserved
when the threshold is raised to 1. -/
theorem match_face_encoding_threshold_monotone_witness :
    (matchFaceEncoding (fun _ _ => [(1 : ℚ)/10])
        ⟨1, 1/2, 3, 0, [[0]], [("B001", "Ada")], 0⟩ [0]).matched = true := by
  have h := match_face_encoding_threshold_monotone (fun _ _ => [(1 : ℚ)/10])
      ⟨1, 1/2, 3, 0, [[0]], [("B001", "Ada")], 0⟩ [0] (1/2) 1 (by norm_num)
  simp only at h
  exact h (by norm_num [matchFaceEncoding, npMin, npArgmin, List.findIdx_cons, beq_self_eq_true])

/-- C2: the identity-load operation never raises (the Lean embedding is a
total function whose inputs are exactly the failures the source catches);
when the connection parameters are missing or the remote query fails it
returns the cached known set, and when the cache is also absent it returns
the empty known set. -/
theorem load_encodings_from_db_fallback
    (credsOK : Bool) (dbQuery : Except Unit (List DBRow))
    (cache : Option KnownSet) (saveOk : Bool)
    (h : credsOK = false ∨ dbQuery = Except.error ()) :
    (load_encodings_from_db credsOK dbQuery cache saveOk).result = cache.getD ([], []) := by
  rcases h with h | h
  · subst h
    cases cache <;> simp [load_encodings_from_db]
  · subst h
    cases credsOK <;> cases cache <;> simp [load_encodings_from_db]

/-- Witness for C2 at a concrete input: a failed query with no cache yields
the empty known set. -/
theorem load_encodings_from_db_fallback_witness :
    (load_encodings_from_db true (Except.error ()) none true).result = ([], []) :=
  load_encodings_from_db_fallback true (Except.error ()) none true (Or.inr rfl)

/-- C7 counterexample: a successful remote load that yields zero identities
(empty rows) does NOT write through to the cache — save_encodings_cache is
guarded by `if known_encodings:` — so the previous cache file survives,
contradicting the claim that every successful remote load refreshes it. -/
theorem load_encodings_write_through_counterexample :
    (load_encodings_from_db true (Except.ok []) (some ([[1]], [("B002", "Old")])) true).result
      = ([], [])
    ∧ (load_encodings_from_db true (Except.ok []) (some ([[1]], [("B002", "Old")])) true).wroteCache
      = false
    ∧ (load_encodings_from_db true (Except.ok []) (some ([[1]], [("B002", "Old")])) true).cacheAfter
      = some ([[1]], [("B002", "Old")]) :=
  ⟨rfl, rfl, rfl⟩

/-- C7 (amended: the write-through happens only when the remote load yields
at least one identity): a successful remote load with a nonempty result
invokes the cache save (and, when the save succeeds, the cache afterwards
holds exactly the loaded known set); a successful load with an empty result
leaves the cache untouched; and no path of the load ever writes to the
remote store. -/
theorem load_encodings_write_through
    (rows : List DBRow) (cache : Option KnownSet) (saveOk : Bool) :
    ((rowsToKnownSet rows).1 ≠ [] →
        (load_encodings_from_db true (Except.ok rows) cache saveOk).wroteCache = true
        ∧ (saveOk = true →
            (load_encodings_from_db true (Except.ok rows) cache saveOk).cacheAfter
              = some (rowsToKnownSet rows)))
    ∧ ((rowsToKnownSet rows).1 = [] →
        (load_encodings_from_db true (Except.ok rows) cache saveOk).wroteCache = false
        ∧ (load_encodings_from_db true (Except.ok rows) cache saveOk).cacheAfter = cache)
    ∧ (∀ credsOK dbQuery,
        (load_encodings_from_db credsOK dbQuery cache saveOk).wroteRemote = false) := by
  refine ⟨?_, ?_, ?_⟩
  · intro hne
    have h1 : (rowsToKnownSet rows).1.isEmpty = false := by
      simp [List.isEmpty_iff, hne]
    constructor
    · simp [load_encodings_from_db, h1]
    · intro hs
      subst hs
      simp [load_encodings_from_db, h1]
  · intro he
    have h1 : (rowsToKnownSet rows).1.isEmpty = true := by
      simp [List.isEmpty_iff, he]
    constructor <;> simp [load_encodings_from_db, h1]
  · intro credsOK dbQuery
    cases credsOK
    · cases cache <;> simp [load_encodings_from_db]
    · cases dbQuery with
      | ok rows' =>
          by_cases h1 : (rowsToKnownSet rows').1.isEmpty <;>
            simp [load_encodings_from_db, h1]
      | error e => cases cache <;> simp [load_encodings_from_db]

/-- Witness for the amended C7 at a concrete input: one valid row makes the
load write the cache. -/
theorem load_encodings_write_through_witness :
    (load_encodings_from_db true
        (Except.ok [⟨"B001", "Ada", "Lovelace", some [0]⟩]) none true).wroteCache = true :=
  ((load_encodings_write_through [⟨"B001", "Ada", "Lovelace", some [0]⟩] none true).1
    (by simp [rowsToKnownSet])).1

theorem tryLogVerification_eq_find (http : String → Option ℕ) (l : List String) :
    tryLogVerification http l = l.find? (isLog200 http) := by
  induction l with
  | nil => rfl
  | cons u rest ih =>
    cases hu : http u with
    | none => simp [tryLogVerification, List.find?_cons, isLog200, hu, ih]
    | some n =>
      by_cases hn : n = 200
      · subst hn
        simp [tryLogVerification, List.find?_cons, isLog200, hu]
      · simp [tryLogVerification, List.find?_cons, isLog200, hu, hn, ih]

theorem tryProcessOrder_find (ohttp : String → Option (ℕ × Bool)) (l : List String)
    (u0 : String) (hf : l.find? (isOrder200 ohttp) = some u0) :
    ∃ b, ohttp u0 = some (200, b) ∧ tryProcessOrder ohttp l = some (u0, b) := by
  induction l with
  | nil => cases hf
  | cons u rest ih =>
    cases hu : ohttp u with
    | none =>
      rw [List.find?_cons] at hf
      have hp : isOrder200 ohttp u = false := by simp [isOrder200, hu]
      rw [hp] at hf
      obtain ⟨b, hb, ht⟩ := ih hf
      exact ⟨b, hb, by simpa [tryProcessOrder, hu] using ht⟩
    | some r =>
      obtain ⟨n, b⟩ := r
      by_cases hn : n = 200
      · subst hn
        rw [List.find?_cons] at hf
        have hp : isOrder200 ohttp u = true := by simp [isOrder200, hu]
        rw [hp] at hf
        injection hf with hf
        subst hf
        exact ⟨b, hu, by simp [tryProcessOrder, hu]⟩
      · rw [List.find?_cons] at hf
        have hp : isOrder200 ohttp u = false := by simp [isOrder200, hu, hn]
        rw [hp] at hf
        obtain ⟨b', hb, ht⟩ := ih hf
        exact ⟨b', hb, by simpa [tryProcessOrder, hu, hn] using ht⟩

/-- C6: both dispatch helpers try the candidate list in order — the new
primary is exactly the FIRST candidate answering 200 (List.find?), the scan
stops there (for the order call, the returned flag is that very response's
order_fulfilled field), and the next call's candidate list starts with the
remembered URL (sticky-success). -/
theorem dispatch_failover_sticky
    (http : String → Option ℕ) (ohttp : String → Option (ℕ × Bool)) (p q : String)
    (hl : ∃ u ∈ urlsToTry p, isLog200 http u = true)
    (ho : ∃ u ∈ urlsToTry q, isOrder200 ohttp u = true) :
    ((log_verification_http http p).1 = true
      ∧ (urlsToTry p).find? (isLog200 http) = some (log_verification_http http p).2
      ∧ (urlsToTry (log_verification_http http p).2).head?
          = some (log_verification_http http p).2)
    ∧ ((urlsToTry q).find? (isOrder200 ohttp) = some (process_order_fulfillment ohttp q).2
      ∧ (∃ b, ohttp (process_order_fulfillment ohttp q).2 = some (200, b)
            ∧ (process_order_fulfillment ohttp q).1 = b)
      ∧ (urlsToTry (process_order_fulfillment ohttp q).2).head?
          = some (process_order_fulfillment ohttp q).2) := by
  constructor
  · have hsome : ((urlsToTry p).find? (isLog200 http)).isSome := by
      rw [List.find?_isSome]
      exact hl
    obtain ⟨u, hu⟩ := Option.isSome_iff_exists.mp hsome
    have hres : log_verification_http http p = (true, u) := by
      unfold log_verification_http
      rw [tryLogVerification_eq_find, hu]
    refine ⟨by rw [hres], by rw [hres, hu], by rw [hres]; rfl⟩
  · have hsome : ((urlsToTry q).find? (isOrder200 ohttp)).isSome := by
      rw [List.find?_isSome]
      exact ho
    obtain ⟨u, hu⟩ := Option.isSome_iff_exists.mp hsome
    obtain ⟨b, hb, ht⟩ := tryProcessOrder_find ohttp (urlsToTry q) u hu
    have hres : process_order_fulfillment ohttp q = (b, u) := by
      unfold process_order_fulfillment
      rw [ht]
    refine ⟨by rw [hres, hu], ⟨b, by rw [hres]; exact hb, by rw [hres]⟩, by rw [hres]; rfl⟩

/-- Witness for C6 at a concrete input: with the primary equal to the first
alternative and only the last of the five candidates answering 200, both
calls succeed, remember the last URL, and would try it first next time. -/
theorem dispatch_failover_sticky_witness :
    (log_verification_http
        (fun u => if u = "http://10.202.65.203:5001" then some 200 else none)
        "http://localhost:5001").2 = "http://10.202.65.203:5001"
    ∧ (urlsToTry ((process_order_fulfillment
        (fun u => if u = "http://10.202.65.203:5001" then some (200, true) else none)
        "http://localhost:5001").2)).head? = some "http://10.202.65.203:5001" := by
  have h := dispatch_failover_sticky
      (fun u => if u = "http://10.202.65.203:5001" then some 200 else none)
      (fun u => if u = "http://10.202.65.203:5001" then some (200, true) else none)
      "http://localhost:5001" "http://localhost:5001"
      (by decide) (by decide)
  constructor
  · have h1 := h.1.2.1
    have h2 : (urlsToTry "http://localhost:5001").find?
        (isLog200 (fun u => if u = "http://10.202.65.203:5001" then some 200 else none))
        = some "http://10.202.65.203:5001" := by decide
    rw [h2] at h1
    exact (Option.some.inj h1).symm
  · have h1 := h.2.2.2
    have h2 := h.2.1
    have h3 : (urlsToTry "http://localhost:5001").find?
        (isOrder200 (fun u => if u = "http://10.202.65.203:5001" then some (200, true) else none))
        = some "http://10.202.65.203:5001" := by decide
    rw [h3] at h2
    rw [← Option.some.inj h2] at h1
    exact h1

/-- C4: in every upsert, firstRecognizedAt keeps the prior track's value
unless the incoming result is matched and the track was previously unmatched
or absent (then it becomes now); a newly created track from an unmatched
result gets none. -/
theorem upsert_first_recognized_spec
    (now : ℚ) (tracking : TrackMap) (r : RecognitionResult) :
    (upsertTrack now tracking r).1 = trackIdFor now tracking r
    ∧ (∀ p, dictGet tracking (trackIdFor now tracking r) = some p →
        (upsertTrack now tracking r).2.firstRecognized
          = if r.matched && !p.matched then some now else p.firstRecognized)
    ∧ (dictGet tracking (trackIdFor now tracking r) = none →
        (upsertTrack now tracking r).2.firstRecognized
          = if r.matched then some now else none) := by
  refine ⟨rfl, ?_, ?_⟩
  · intro p hp
    simp only [upsertTrack, hp]
  · intro hp
    simp only [upsertTrack, hp]
    cases r.matched <;> simp

/-- Witness for C4 at a concrete input: a matched result hitting a
previously-unmatched track at the same center stamps firstRecognizedAt with
the call time. -/
theorem upsert_first_recognized_spec_witness :
    (upsertTrack 5
        [("t0", ⟨(0, 0, 0, 0), (0, 0), "Ada", false, 0, some "B001", 1, none⟩)]
        ⟨"Ada", true, 9/10, some "B001", (0, 0, 0, 0)⟩).2.firstRecognized
      = some 5 := by
  have h := (upsert_first_recognized_spec 5
      [("t0", ⟨(0, 0, 0, 0), (0, 0), "Ada", false, 0, some "B001", 1, none⟩)]
      ⟨"Ada", true, 9/10, some "B001", (0, 0, 0, 0)⟩).2.1
      ⟨(0, 0, 0, 0), (0, 0), "Ada", false, 0, some "B001", 1, none⟩
      (by decide)
  simpa using h

theorem process_events_at_most_one (now lastRec : ℚ) (tracks : TrackMap) :
    (process_face_recognition_events now lastRec tracks).1.length ≤ 1 := by
  induction tracks with
  | nil => simp [process_face_recognition_events]
  | cons p rest ih =>
    obtain ⟨tid, t⟩ := p
    by_cases h : eventGuard now lastRec t = true
    · simp [process_face_recognition_events, h]
    · simpa [process_face_recognition_events, h] using ih

theorem process_events_cases (now lastRec : ℚ) (tracks : TrackMap) :
    ((process_face_recognition_events now lastRec tracks).1 = []
      ∧ (process_face_recognition_events now lastRec tracks).2 = lastRec)
    ∨ ((process_face_recognition_events now lastRec tracks).1 ≠ []
      ∧ (process_face_recognition_events now lastRec tracks).2 = now
      ∧ RECOGNITION_COOLDOWN < now - lastRec) := by
  induction tracks with
  | nil => exact Or.inl ⟨rfl, rfl⟩
  | cons p rest ih =>
    obtain ⟨tid, t⟩ := p
    by_cases h : eventGuard now lastRec t = true
    · refine Or.inr ⟨?_, ?_, ?_⟩
      · simp [process_face_recognition_events, h]
      · simp [process_face_recognition_events, h]
      · have h3 := h
        unfold eventGuard at h3
        simp only [Bool.and_eq_true, decide_eq_true_eq] at h3
        exact h3.2
    · simpa [process_face_recognition_events, h] using ih

theorem runDispatchTimes_chain (calls : List (ℚ × TrackMap)) : ∀ lastRec : ℚ,
    List.Chain' (fun a b => RECOGNITION_COOLDOWN < b - a) (runDispatchTimes lastRec calls)
    ∧ (∀ t, (runDispatchTimes lastRec calls).head? = some t →
        RECOGNITION_COOLDOWN < t - lastRec) := by
  induction calls with
  | nil => intro lastRec; exact ⟨List.chain'_nil, by intro t ht; cases ht⟩
  | cons c rest ih =>
    intro lastRec
    obtain ⟨now, tracks⟩ := c
    rcases process_events_cases now lastRec tracks with ⟨h1, h2⟩ | ⟨h1, h2, h3⟩
    · have he : (process_face_recognition_events now lastRec tracks).1.isEmpty = true := by
        simp [h1]
      constructor
      · simpa [runDispatchTimes, he, h2] using (ih lastRec).1
      · intro t ht
        rw [show runDispatchTimes lastRec ((now, tracks) :: rest)
              = runDispatchTimes lastRec rest by simp [runDispatchTimes, he, h2]] at ht
        exact (ih lastRec).2 t ht
    · have he : (process_face_recognition_events now lastRec tracks).1.isEmpty = false := by
        simpa [List.isEmpty_iff] using h1
      have hrw : runDispatchTimes lastRec ((now, tracks) :: rest)
          = now :: runDispatchTimes now rest := by
        simp [runDispatchTimes, he, h2]
      constructor
      · rw [hrw]
        apply List.Chain'.cons'
        · exact (ih now).1
        · intro t ht
          exact (ih now).2 t ht
      · intro t ht
        rw [hrw] at ht
        injection ht with ht
        subst ht
        exact h3

/-- C5: the event-processing step dispatches at most one recognition event
per call even when several matched tracks are present, and across a whole
run any two dispatched events are separated by strictly more than the single
global cooldown (last_recognition_time is one global value). -/
theorem recognition_event_cooldown :
    (∀ now lastRec : ℚ, ∀ tracks : TrackMap,
      (process_face_recognition_events now lastRec tracks).1.length ≤ 1)
    ∧ (∀ lastRec : ℚ, ∀ calls : List (ℚ × TrackMap),
      (runDispatchTimes lastRec calls).Pairwise
        (fun a b => RECOGNITION_COOLDOWN < b - a)) := by
  constructor
  · exact process_events_at_most_one
  · intro lastRec calls
    haveI : IsTrans ℚ (fun a b => RECOGNITION_COOLDOWN < b - a) := by
      constructor
      intro a b c hab hbc
      have h0 : (0 : ℚ) ≤ RECOGNITION_COOLDOWN := by norm_num [RECOGNITION_COOLDOWN]
      simp only at hab hbc ⊢
      linarith
    exact List.chain'_iff_pairwise.mp (runDispatchTimes_chain calls lastRec).1

theorem dictGet_upsert (m : TrackMap) (k : String) (v : TrackedFace) (k' : String) :
    dictGet (dictUpsert m k v) k' = if k' = k then some v else dictGet m k' := by
  unfold dictUpsert dictGet
  by_cases hany : m.any (fun p => p.1 == k) = true
  · rw [if_pos hany, List.find?_map]
    by_cases hk : k' = k
    · subst hk
      have hpred : ((fun q : String × TrackedFace => q.1 == k') ∘
          fun p => if p.1 == k' then (k', v) else p)
            = (fun p : String × TrackedFace => p.1 == k') := by
        funext p
        by_cases hp : p.1 = k' <;> simp [hp]
      rw [hpred]
      have hsome : (m.find? (fun p => p.1 == k')).isSome := by
        rw [List.find?_isSome]
        simpa using hany
      obtain ⟨p0, hp0⟩ := Option.isSome_iff_exists.mp hsome
      have hp0k : p0.1 = k' := by simpa using List.find?_some hp0
      rw [hp0]
      simp [hp0k]
    · have hpred : ((fun q : String × TrackedFace => q.1 == k') ∘
          fun p => if p.1 == k then (k, v) else p)
            = (fun p : String × TrackedFace => p.1 == k') := by
        funext p
        by_cases hp : p.1 = k
        · simp [hp, Ne.symm hk, hk]
        · simp [hp]
      rw [hpred, if_neg hk]
      cases hf : m.find? (fun p => p.1 == k') with
      | none => simp
      | some p0 =>
        have hp0k : p0.1 = k' := by simpa using List.find?_some hf
        have hp0ne : ¬ p0.1 = k := by rw [hp0k]; exact hk
        simp [hp0ne]
  · rw [if_neg hany, List.find?_append]
    have hnone : m.find? (fun p : String × TrackedFace => p.1 == k) = none := by
      rw [List.find?_eq_none]
      intro x hx hc
      exact hany (List.any_eq_true.mpr ⟨x, hx, hc⟩)
    by_cases hk : k' = k
    · subst hk
      rw [hnone]
      simp
    · have h2 : List.find? (fun p : String × TrackedFace => p.1 == k') [(k, v)] = none := by
        simp [Ne.symm hk]
      rw [h2, if_neg hk]
      simp

theorem dictGet_foldl_upsert_none (l : TrackMap) (m : TrackMap) (k : String) :
    dictGet (l.foldl (fun acc p => dictUpsert acc p.1 p.2) m) k = none
      ↔ (∀ p ∈ l, p.1 ≠ k) ∧ dictGet m k = none := by
  induction l generalizing m with
  | nil => simp
  | cons q rest ih =>
    rw [List.foldl_cons, ih]
    constructor
    · rintro ⟨h1, h2⟩
      rw [dictGet_upsert] at h2
      by_cases hk : k = q.1
      · rw [if_pos hk] at h2
        cases h2
      · rw [if_neg hk] at h2
        refine ⟨?_, h2⟩
        intro p hp
        rcases List.mem_cons.mp hp with rfl | hp
        · exact fun hc => hk hc.symm
        · exact h1 p hp
    · rintro ⟨h1, h2⟩
      have hq : q.1 ≠ k := h1 q (List.mem_cons_self q rest)
      refine ⟨fun p hp => h1 p (List.mem_cons_of_mem q hp), ?_⟩
      rw [dictGet_upsert, if_neg (fun hc => hq hc.symm)]
      exact h2

theorem dictGet_none_of_no_key (l : TrackMap) (k : String)
    (h : ∀ p ∈ l, p.1 ≠ k) : dictGet l k = none := by
  unfold dictGet
  rw [List.find?_eq_none.mpr]
  · rfl
  · intro x hx hc
    exact h x hx (by simpa using hc)

theorem dictGet_filter (l : TrackMap) (k : String) (d : TrackedFace)
    (f : String × TrackedFace → Bool)
    (hnd : (l.map Prod.fst).Nodup) (hg : dictGet l k = some d) :
    dictGet (l.filter f) k = if f (k, d) then some d else none := by
  induction l with
  | nil => cases hg
  | cons q rest ih =>
    rw [List.map_cons, List.nodup_cons] at hnd
    by_cases hq : q.1 = k
    · have hqd : q = (k, d) := by
        have : dictGet (q :: rest) k = some q.2 := by
          unfold dictGet
          rw [List.find?_cons_of_pos _ (by simpa using hq)]
          rfl
        rw [hg] at this
        obtain ⟨q1, q2⟩ := q
        cases this
        simp only at hq
        rw [hq]
      subst hqd
      by_cases hf : f (k, d) = true
      · rw [if_pos hf, List.filter_cons_of_pos hf]
        unfold dictGet
        rw [List.find?_cons_of_pos _ (by simp)]
        rfl
      · rw [if_neg hf, List.filter_cons_of_neg (by simpa using hf)]
        apply dictGet_none_of_no_key
        intro p hp
        have : p.1 ∈ rest.map Prod.fst :=
          List.mem_map_of_mem Prod.fst (List.mem_of_mem_filter hp)
        intro hc
        rw [hc] at this
        exact hnd.1 this
    · have hg' : dictGet rest k = some d := by
        unfold dictGet at hg ⊢
        rwa [List.find?_cons_of_neg _ (by simpa using hq)] at hg
      have ihr := ih hnd.2 hg'
      by_cases hf : f q = true
      · rw [List.filter_cons_of_pos hf]
        unfold dictGet
        rw [List.find?_cons_of_neg _ (by simpa using hq)]
        exact ihr
      · rw [List.filter_cons_of_neg (by simpa using hf)]
        exact ihr

/-- C3 counterexample: a track whose age equals the persistence window
exactly (lastSeen 0, now 3, window 3) is removed by the source's retention
test now - last_seen < FACE_PERSISTENCE_TIME, while the claim, which removes
only tracks whose age STRICTLY exceeds the window, predicts retention. -/
theorem track_expiry_boundary_counterexample :
    dictGet (update_face_tracking 3 []
        [("t", ⟨(0, 0, 0, 0), (0, 0), "A", false, 0, none, 0, none⟩)]) "t" = none
    ∧ ¬ ((3 : ℚ) - 0 > FACE_PERSISTENCE_TIME) := by
  constructor
  · norm_num [update_face_tracking, currentFaces, dictGet, FACE_PERSISTENCE_TIME,
      List.filter]
  · norm_num [FACE_PERSISTENCE_TIME]

/-- C3 (amended: a pre-existing track is removed exactly when its age
REACHES the persistence window, now - lastSeen ≥ window, rather than
strictly exceeding it): after an update call, a pre-existing track id is
absent from the track set if and only if it was not upserted by the current
frame's results and now - lastSeen ≥ FACE_PERSISTENCE_TIME; in particular a
track within the window is retained even when unmatched or absent from the
frame, and expiry is the only removal path. -/
theorem track_expiry_spec
    (now : ℚ) (results : List RecognitionResult) (tracking : TrackMap)
    (tid : String) (d : TrackedFace)
    (hnd : (tracking.map Prod.fst).Nodup)
    (hg : dictGet tracking tid = some d) :
    dictGet (update_face_tracking now results tracking) tid = none
      ↔ ((∀ p ∈ currentFaces now results tracking, p.1 ≠ tid)
          ∧ FACE_PERSISTENCE_TIME ≤ now - d.lastSeen) := by
  unfold update_face_tracking
  rw [dictGet_foldl_upsert_none]
  rw [dictGet_filter tracking tid d
      (fun p => now - p.2.lastSeen < FACE_PERSISTENCE_TIME) hnd hg]
  by_cases hlt : now - d.lastSeen < FACE_PERSISTENCE_TIME
  · rw [if_pos (by simpa using hlt)]
    constructor
    · rintro ⟨-, h2⟩
      cases h2
    · rintro ⟨-, h2⟩
      exact absurd hlt (not_lt.mpr h2)
  · rw [if_neg (by simpa using hlt)]
    constructor
    · rintro ⟨h1, -⟩
      exact ⟨h1, not_lt.mp hlt⟩
    · rintro ⟨h1, -⟩
      exact ⟨h1, rfl⟩

/-- Witness for the amended C3 at a concrete input: a track last seen at
time -1 is gone after an update at time 3 with no detections. -/
theorem track_expiry_spec_witness :
    dictGet (update_face_tracking 3 []
        [("t", ⟨(0, 0, 0, 0), (0, 0), "A", false, 0, none, -1, none⟩)]) "t" = none := by
  apply (track_expiry_spec 3 []
      [("t", ⟨(0, 0, 0, 0), (0, 0), "A", false, 0, none, -1, none⟩)] "t"
      ⟨(0, 0, 0, 0), (0, 0), "A", false, 0, none, -1, none⟩
      (by simp) (by norm_num [dictGet])).mpr
  constructor
  · intro p hp
    simp [currentFaces] at hp
  · norm_num [FACE_PERSISTENCE_TIME]

/-- C10: while no known identities are loaded, analyze_frame returns the
empty result list immediately for every frame and both values of the
skip-check flag, runs no face detection (third component false) and leaves
the engine state — in particular the frame-skip counter — unchanged. -/
theorem analyze_frame_empty_known
    (v : Vision) (loadOut : List Emb × List (String × String)) (now : ℚ)
    (s : EngineState) (frame : Option Frame) (skipCheck : Bool)
    (h : s.knownEncodings = []) :
    analyze_frame v loadOut now s frame skipCheck = ([], s, false) := by
  cases frame with
  | none => rfl
  | some f => simp [analyze_frame, h]

/-- Witness for C10 at a concrete input: an engine with no known encodings
ignores a frame and keeps its counter at 7. -/
theorem analyze_frame_empty_known_witness :
    analyze_frame ⟨fun f _ => f, fun _ => [(0, 0, 0, 0)], fun _ _ => [[0]], fun _ _ => [0]⟩
      ([], []) 0 ⟨65/100, 1/2, 3, 7, [], [], 0⟩ (some 0) false
      = ([], ⟨65/100, 1/2, 3, 7, [], [], 0⟩, false) :=
  analyze_frame_empty_known _ _ _ _ _ _ rfl

end Capstone

